import Mathlib

/-!
Verification of the evidence-collection orchestration engine (winscope).

Shallow embedding of `src/core/evidence_controller.py` (the
`CollectionThread.run` module loop, `CollectionThread._compress_evidence`
level selection, `EvidenceController.start_collection`) and of
`src/services/hash_calculator.py` (`HashCalculator.calculate_file_hashes`,
`HashCalculator.verify_file_hash`).

Python values that can raise are modelled with `PyResult`; the observable
behaviour of a run is its trace of emitted Qt signals plus markers for the
module-method invocations.  Machine-level digest functions (hashlib) are
opaque pure functions of the file bytes, supplied as a `DigestImpl`.
-/

namespace Winscope

/-- Outcome of calling a Python function: a returned value or a raised
exception carrying its message. -/
inductive PyResult (α : Type) where
  | ok : α → PyResult α
  | exn : String → PyResult α
  deriving DecidableEq, Repr

/-- Whether the call returned normally. -/
def PyResult.isOk {α : Type} : PyResult α → Bool
  | .ok _ => true
  | .exn _ => false

/-- Behaviour of one collection module as seen through the lifecycle
contract of `ICollectionModule` (src/modules/base_module.py): the results
of its `initialize()`, `execute()` and `cleanup()` calls, plus the `id`
and `name` entries of `get_module_info()`. -/
structure ModuleBehavior where
  id : String
  name : String
  initializeResult : PyResult Bool
  executeResult : PyResult Bool
  cleanupResult : PyResult Unit
  deriving DecidableEq, Repr

/-- Which of the three lifecycle methods is being invoked. -/
inductive ModuleOp where
  | initializeOp
  | executeOp
  | cleanupOp
  deriving DecidableEq, Repr

/-- Observable actions of `CollectionThread.run`: the Qt signal emissions
(`log_message`, `module_started`, `module_completed`, `progress_updated`,
`collection_completed`) and markers recording each lifecycle-method call
on a module (identified by the module id). -/
inductive Event where
  | call : ModuleOp → String → Event
  | logMessage : String → String → Event
  | moduleStarted : String → Event
  | moduleCompleted : String → Bool → Event
  | progressUpdated : Nat → Nat → Event
  | collectionCompleted : Bool → String → Event
  deriving DecidableEq, Repr

/-- Outcome of the `for` loop of `CollectionThread.run` (lines 47-90):
it either falls through normally carrying the `completed` counter and the
`failed_modules` list, returns early out of the stop branch (lines 48-51),
or an exception escapes the loop body to the `except` at line 108. -/
inductive LoopResult where
  | finished : Nat → List String → List Event → LoopResult
  | stopped : List Event → LoopResult
  | raised : List Event → String → LoopResult
  deriving DecidableEq, Repr

/-- Events emitted up to the point the loop ended, whichever way it ended. -/
def LoopResult.events : LoopResult → List Event
  | .finished _ _ evs => evs
  | .stopped evs => evs
  | .raised evs _ => evs

/-- Prefix a batch of already-emitted events onto a loop outcome. -/
def LoopResult.prepend (evs : List Event) : LoopResult → LoopResult
  | .finished c f es => .finished c f (evs ++ es)
  | .stopped es => .stopped (evs ++ es)
  | .raised es e => .raised (evs ++ es) e

/-- Events of the stop branch (lines 49-50): the warning log and the
terminal `collection_completed(False, "Stopped by user")`. -/
def stopEvents : List Event :=
  [Event.logMessage "Collection stopped by user" "WARNING",
   Event.collectionCompleted false "Stopped by user"]

/-- Value the `self.should_stop` flag reads at the top-of-loop check of
module `i` (1-based).  The flag starts `False` and `stop()` only ever sets
it to `True`, so a run is summarised by the first check index `k` at which
the flag reads true (`none` when `stop()` is never observed). -/
def shouldStopAt (stopFrom : Option Nat) (i : Nat) : Bool :=
  match stopFrom with
  | none => false
  | some k => decide (k ≤ i)

/-- Outcome of one iteration body of the module loop after the stop check:
either control reaches the bottom of the body / the `continue` (carrying
whether `execute()` returned success, for the `completed`/`failed`
bookkeeping), or the body raised. -/
inductive StepOut where
  | proceed : Bool → List Event → StepOut
  | raisedE : List Event → String → StepOut
  deriving DecidableEq, Repr

/-- Events the iteration body emitted, whichever way it ended. -/
def StepOut.events : StepOut → List Event
  | .proceed _ q => q
  | .raisedE q _ => q

/-- One iteration of the module loop, lines 53-90 of
`CollectionThread.run`, for the module at 1-based position `i` of `total`:
start log and `module_started`, `initialize()` (on falsy return: error
log, failed record, `module_completed(id, False)`, `continue` — note no
progress event), `execute()`, the success or failure log, `cleanup()`,
then `module_completed(id, success)` and `progress_updated(i, total)`.
Any exception from the three calls escapes the body. -/
def moduleStep (m : ModuleBehavior) (i total : Nat) : StepOut :=
  let pre : List Event :=
    [Event.logMessage ("Starting module: " ++ m.name) "INFO",
     Event.moduleStarted m.id,
     Event.call .initializeOp m.id]
  match m.initializeResult with
  | .exn e => .raisedE pre e
  | .ok false =>
      .proceed false
        (pre ++ [Event.logMessage ("Failed to initialize module: " ++ m.name) "ERROR",
                 Event.moduleCompleted m.id false])
  | .ok true =>
      let evs1 := pre ++ [Event.call .executeOp m.id]
      match m.executeResult with
      | .exn e => .raisedE evs1 e
      | .ok success =>
          let evs2 := evs1 ++
            (if success then
              [Event.logMessage ("Module completed successfully: " ++ m.name) "SUCCESS"]
            else
              [Event.logMessage ("Module failed: " ++ m.name) "ERROR"]) ++
            [Event.call .cleanupOp m.id]
          match m.cleanupResult with
          | .exn e => .raisedE evs2 e
          | .ok _ =>
              .proceed success
                (evs2 ++ [Event.moduleCompleted m.id success,
                          Event.progressUpdated i total])

/-- The module loop of `CollectionThread.run` (lines 47-90): iterates the
remaining modules from 1-based index `i`, threading the `completed`
counter `c` and the `failed_modules` list `f`.  An `initialize()` falsy
return and an `execute()` falsy return both append the module *name* to
`failed_modules`; only an `execute()` truthy return increments
`completed`. -/
def collectionLoop (stopFrom : Option Nat) (total : Nat) :
    List ModuleBehavior → Nat → Nat → List String → LoopResult
  | [], _, c, f => .finished c f []
  | m :: rest, i, c, f =>
    if shouldStopAt stopFrom i then
      .stopped stopEvents
    else
      match moduleStep m i total with
      | .raisedE evs e => .raised evs e
      | .proceed succ evs =>
          (collectionLoop stopFrom total rest (i + 1)
            (if succ then c + 1 else c)
            (if succ then f else f ++ [m.name])).prepend evs

/-- `log_message` events from a list of (message, level) pairs.
`_generate_report` (lines 118-173) and `_compress_evidence`
(lines 175-287) each catch every exception internally and emit only
`log_message` signals, so from the run's point of view each contributes an
arbitrary batch of log events; the batches are passed in as parameters. -/
def logEvents (ls : List (String × String)) : List Event :=
  ls.map fun p => Event.logMessage p.1 p.2

/-- The two setup logs of `CollectionThread.run` before the module loop
(lines 36 and 41).  (`mkdir` and the log-sink initialisation at lines
38-40 perform no signal emissions and are modelled as non-raising I/O.) -/
def runPreLogs (outputDir : String) : List Event :=
  [Event.logMessage "Initializing collection environment..." "INFO",
   Event.logMessage ("Output directory: " ++ outputDir) "INFO"]

/-- The post-loop events before the terminal emission (lines 92-97): the
report-step log and the report's own logs, then — when compression is
enabled in the config — the compression log and the compressor's logs. -/
def runPostLogs (compressionEnabled : Bool)
    (reportLogs compressLogs : List (String × String)) : List Event :=
  [Event.logMessage "Generating collection report..." "INFO"] ++
  logEvents reportLogs ++
  (if compressionEnabled then
    Event.logMessage "Compressing evidence package..." "INFO" :: logEvents compressLogs
  else [])

/-- The terminal emission of a normally-finished run (lines 99-106):
both branches emit `collection_completed(True, message)`, the message
naming the failure count when `failed_modules` is nonempty. -/
def runFinalEvents (failed : List String) : List Event :=
  if failed.isEmpty then
    [Event.logMessage "Collection completed successfully!" "SUCCESS",
     Event.collectionCompleted true "Collection completed successfully!"]
  else
    [Event.logMessage
      ("Collection completed with " ++ toString failed.length ++ " failed module(s)")
      "WARNING",
     Event.collectionCompleted true
      ("Collection completed with " ++ toString failed.length ++ " failed module(s)")]

/-- `CollectionThread.run` (lines 34-112): the setup logs, the module
loop, then — when the loop falls through normally — the report step, the
optional compression step, and the terminal `collection_completed`
emission chosen by whether `failed_modules` is nonempty; the stop branch
returns directly after its own terminal emission, and any exception
escaping the loop is caught by the `except` at line 108, which logs and
emits a failed-run terminal event. -/
def collectionRun (mods : List ModuleBehavior) (outputDir : String)
    (stopFrom : Option Nat) (compressionEnabled : Bool)
    (reportLogs compressLogs : List (String × String)) : List Event :=
  match collectionLoop stopFrom mods.length mods 1 0 [] with
  | .stopped evs => runPreLogs outputDir ++ evs
  | .raised evs e =>
      runPreLogs outputDir ++ evs ++
        [Event.logMessage ("Collection failed: " ++ e) "ERROR",
         Event.collectionCompleted false ("Collection failed: " ++ e)]
  | .finished _ failed evs =>
      runPreLogs outputDir ++ evs ++
        runPostLogs compressionEnabled reportLogs compressLogs ++
        runFinalEvents failed

/-- Whether an event is the terminal `collection_completed` emission. -/
def isCompletionEvent : Event → Bool
  | .collectionCompleted _ _ => true
  | _ => false

/-- Whether an event is a `module_started` emission. -/
def isStartedEvent : Event → Bool
  | .moduleStarted _ => true
  | _ => false

/-- Whether an event is a `module_completed` emission (the per-module
terminal record: the module reached `Completed` or `Failed`). -/
def isModuleDoneEvent : Event → Bool
  | .moduleCompleted _ _ => true
  | _ => false

/-- Number of terminal `collection_completed` events in a trace. -/
def completionCount (t : List Event) : Nat := t.countP isCompletionEvent

/-- Number of `module_started` events in a trace. -/
def startedCount (t : List Event) : Nat := t.countP isStartedEvent

/-- Number of `module_completed` events in a trace. -/
def moduleDoneCount (t : List Event) : Nat := t.countP isModuleDoneEvent

/-- The `(completed, total)` payloads of the `progress_updated` events of
a trace, in emission order. -/
def progressList (t : List Event) : List (Nat × Nat) :=
  t.filterMap fun ev =>
    match ev with
    | .progressUpdated c n => some (c, n)
    | _ => none

/-- A module whose three lifecycle calls all return (none raises). -/
def nonRaising (m : ModuleBehavior) : Bool :=
  m.initializeResult.isOk && m.executeResult.isOk && m.cleanupResult.isOk

/-- The progress events the loop emits over a module list starting at
1-based index `i`: one `(i, total)` pair per module whose `initialize()`
returned truthy, none for a module whose `initialize()` returned falsy. -/
def expectedProgress : List ModuleBehavior → Nat → Nat → List (Nat × Nat)
  | [], _, _ => []
  | m :: rest, i, total =>
      if m.initializeResult = .ok true then
        (i, total) :: expectedProgress rest (i + 1) total
      else
        expectedProgress rest (i + 1) total

/-- The 1-based index of the last module whose `initialize()` returned
success; `none` when no module's did.  This is what the completed
component of the run's final progress event reports. -/
def lastInitSuccessIndex : List ModuleBehavior → Option Nat
  | [] => none
  | m :: rest =>
    match lastInitSuccessIndex rest with
    | some j => some (j + 1)
    | none => if m.initializeResult = .ok true then some 1 else none

/-! ### The controller (`EvidenceController`, lines 289-412) -/

/-- State of an `EvidenceController`: its `is_running` flag and whether a
`collection_thread` object is currently attached. -/
structure ControllerState where
  is_running : Bool
  hasThread : Bool
  deriving DecidableEq, Repr

/-- Side effects `start_collection` can perform, in order. -/
inductive ControllerAction where
  | loadModules : List String → ControllerAction
  | threadCreated : ControllerAction
  | threadStarted : ControllerAction
  deriving DecidableEq, Repr

/-- The keys of the `module_map` of `EvidenceController._create_module`
(lines 373-382). -/
def module_map_ids : List String :=
  ["network", "filesystem", "live_system", "browser", "memory", "disk",
   "registry", "eventlogs"]

/-- `EvidenceController._create_module` (lines 367-412): an id off the map
returns `None`; otherwise the dynamic import/constructor runs, whose
outcome (an instance, or an exception caught and turned into `None`) is
abstracted as the environment `imp`. -/
def _create_module (imp : String → Option ModuleBehavior)
    (module_id : String) : Option ModuleBehavior :=
  if module_id ∈ module_map_ids then imp module_id else none

/-- `EvidenceController._load_modules` (lines 344-365): resolves each id,
keeping the successes and skipping ids that resolve to `None` or raise. -/
def _load_modules (imp : String → Option ModuleBehavior)
    (module_ids : List String) : List ModuleBehavior :=
  module_ids.filterMap (_create_module imp)

/-- `EvidenceController.start_collection` (lines 296-335), returning the
boolean result, the controller state after the call, and the side effects
performed: an already-running controller returns `False` at once (lines
305-307); otherwise modules are resolved, an empty resolution returns
`False` (lines 312-314), and otherwise a worker thread is created,
wired up and started and `is_running` is set. -/
def start_collection (imp : String → Option ModuleBehavior)
    (st : ControllerState) (module_ids : List String) :
    Bool × ControllerState × List ControllerAction :=
  if st.is_running then
    (false, st, [])
  else
    let modules := _load_modules imp module_ids
    if modules.isEmpty then
      (false, st, [ControllerAction.loadModules module_ids])
    else
      (true, { is_running := true, hasThread := true },
       [ControllerAction.loadModules module_ids,
        ControllerAction.threadCreated,
        ControllerAction.threadStarted])

/-! ### Compression level selection
(`CollectionThread._compress_evidence`, lines 204-224) -/

/-- The zlib `compresslevel` chosen from the total byte size of the files
to compress: the code computes `total_size_gb = total_size / (1024**3)`
(exact in binary floating point for any realistic size, since dividing by
a power of two only shifts the exponent) and picks level 1 when
`total_size_gb > 10`, level 3 when `total_size_gb > 5`, and level 6
otherwise. -/
def compress_level (total_size : Nat) : Nat :=
  if 10 * 1024 ^ 3 < total_size then 1
  else if 5 * 1024 ^ 3 < total_size then 3
  else 6

/-! ### Hash engine (`HashCalculator`, src/services/hash_calculator.py) -/

/-- A path in the modelled file system resolves to readable bytes or to a
file whose `open` raises `PermissionError`. -/
inductive FileAccess where
  | content : List Nat → FileAccess
  | permissionDenied : FileAccess
  deriving DecidableEq, Repr

/-- The file system as the hash engine observes it: `none` means
`file_path.exists()` is false. -/
abbrev FileSystem := String → Option FileAccess

/-- The hashlib digests, as opaque pure functions from the file bytes to
the `hexdigest()` string.  Feeding the bytes chunk-by-chunk through the
incremental `update` interface computes the same digest as of the whole
byte string, so the 8 KiB chunk loop of `calculate_file_hashes` is
modelled as one application to the full contents. -/
structure DigestImpl where
  md5 : List Nat → String
  sha1 : List Nat → String
  sha256 : List Nat → String

/-- `HashCalculator.supported_algorithms` (line 13). -/
def supported_algorithms : List String := ["md5", "sha1", "sha256"]

/-- The `hash_objects` dict of `calculate_file_hashes` (lines 45-49)
after computing every `hexdigest()`: insertion order md5, sha1, sha256. -/
def hash_objects (d : DigestImpl) (bytes : List Nat) : List (String × String) :=
  [("md5", d.md5 bytes), ("sha1", d.sha1 bytes), ("sha256", d.sha256 bytes)]

/-- The `try` block of `calculate_file_hashes` (lines 36-80): a missing
file returns `{}` (line 40); opening a permission-denied file raises
`PermissionError`; otherwise the digests of the algorithms kept by the
line-51 filter are returned. -/
def calculate_body (d : DigestImpl) (fs : FileSystem) (file_path : String)
    (algorithms : List String) : PyResult (List (String × String)) :=
  match fs file_path with
  | none => .ok []
  | some .permissionDenied => .exn "PermissionError"
  | some (.content bytes) =>
      .ok ((hash_objects d bytes).filter fun p => decide (p.1 ∈ algorithms))

/-- `HashCalculator.calculate_file_hashes` (lines 15-94): `None` defaults
the algorithm list to all supported algorithms (lines 21-22); when any
unsupported name is present the list is filtered down to the supported
ones with a warning (lines 24-30); an empty remaining list returns `{}`
(lines 32-34); and both `except` clauses (lines 82-94) convert any raise
from the body into `{}` — nothing propagates to the caller. -/
def calculate_file_hashes (d : DigestImpl) (fs : FileSystem)
    (file_path : String) (algorithms : Option (List String)) :
    List (String × String) :=
  let algs0 := algorithms.getD supported_algorithms
  let invalid := algs0.filter fun a => decide (a ∉ supported_algorithms)
  let algs := if invalid.isEmpty then algs0
    else algs0.filter fun a => decide (a ∈ supported_algorithms)
  if algs.isEmpty then []
  else
    match calculate_body d fs file_path algs with
    | .ok r => r
    | .exn _ => []

/-- `HashCalculator.verify_file_hash` (lines 96-126): an unsupported
algorithm returns `False`; an empty recomputed mapping returns `False`;
otherwise the recomputed digest for the algorithm (defaulting to `""`)
is compared case-insensitively with the expected one. -/
def verify_file_hash (d : DigestImpl) (fs : FileSystem) (file_path : String)
    (expected_hash : String) (algorithm : String) : Bool :=
  if algorithm ∉ supported_algorithms then false
  else
    let calculated := calculate_file_hashes d fs file_path (some [algorithm])
    if calculated.isEmpty then false
    else
      let actual := (calculated.lookup algorithm).getD ""
      actual.toLower == expected_hash.toLower

/-- The digest function the engine associates with an algorithm name (the
key-to-object association built at lines 45-49); `""` for a name off the
map. -/
def algorithmDigest (d : DigestImpl) (algorithm : String) (bytes : List Nat) : String :=
  if algorithm = "md5" then d.md5 bytes
  else if algorithm = "sha1" then d.sha1 bytes
  else if algorithm = "sha256" then d.sha256 bytes
  else ""

/-! ### Concrete fixtures used by witnesses and counterexamples -/

/-- A stand-in digest implementation for concrete evaluations. -/
def d0 : DigestImpl :=
  { md5 := fun _ => "aa", sha1 := fun _ => "bb", sha256 := fun _ => "cc" }

/-- A tiny file system: one readable file, one permission-denied file. -/
def fs0 : FileSystem := fun p =>
  if p = "evidence.bin" then some (.content [0, 1])
  else if p = "locked.bin" then some FileAccess.permissionDenied
  else none

/-- A module that initialises, executes and cleans up successfully. -/
def mOk : ModuleBehavior :=
  { id := "m1", name := "M1", initializeResult := .ok true,
    executeResult := .ok true, cleanupResult := .ok () }

/-- A second fully successful module. -/
def mOk2 : ModuleBehavior :=
  { id := "m2", name := "M2", initializeResult := .ok true,
    executeResult := .ok true, cleanupResult := .ok () }

/-- A module whose `initialize()` returns `False`. -/
def mInitFail : ModuleBehavior :=
  { id := "mif", name := "MIF", initializeResult := .ok false,
    executeResult := .ok true, cleanupResult := .ok () }

/-- A module whose `execute()` returns `False`. -/
def mExecFail : ModuleBehavior :=
  { id := "mef", name := "MEF", initializeResult := .ok true,
    executeResult := .ok false, cleanupResult := .ok () }

/-- A module whose `execute()` raises. -/
def mExecRaise : ModuleBehavior :=
  { id := "mer", name := "MER", initializeResult := .ok true,
    executeResult := .exn "boom", cleanupResult := .ok () }

/-- A module whose `initialize()` raises. -/
def mInitRaise : ModuleBehavior :=
  { id := "mir", name := "MIR", initializeResult := .exn "iboom",
    executeResult := .ok true, cleanupResult := .ok () }

/-- A module whose `cleanup()` raises. -/
def mCleanupRaise : ModuleBehavior :=
  { id := "mcr", name := "MCR", initializeResult := .ok true,
    executeResult := .ok true, cleanupResult := .exn "cboom" }

/-! ## Theorems -/

/-! ### Helper lemmas about the loop embedding -/

theorem LoopResult.prepend_nil (r : LoopResult) : r.prepend [] = r := by
  cases r <;> simp [LoopResult.prepend]

theorem LoopResult.prepend_prepend (r : LoopResult) (a b : List Event) :
    (r.prepend b).prepend a = r.prepend (a ++ b) := by
  cases r <;> simp [LoopResult.prepend]

theorem LoopResult.events_prepend (r : LoopResult) (a : List Event) :
    (r.prepend a).events = a ++ r.events := by
  cases r <;> simp [LoopResult.prepend, LoopResult.events]

theorem completionCount_append (a b : List Event) :
    completionCount (a ++ b) = completionCount a + completionCount b :=
  List.countP_append _ _ _

theorem startedCount_append (a b : List Event) :
    startedCount (a ++ b) = startedCount a + startedCount b :=
  List.countP_append _ _ _

theorem moduleDoneCount_append (a b : List Event) :
    moduleDoneCount (a ++ b) = moduleDoneCount a + moduleDoneCount b :=
  List.countP_append _ _ _

theorem progressList_append (a b : List Event) :
    progressList (a ++ b) = progressList a ++ progressList b :=
  List.filterMap_append _ _ _

theorem counts_logEvents (ls : List (String × String)) :
    completionCount (logEvents ls) = 0 ∧
    startedCount (logEvents ls) = 0 ∧
    moduleDoneCount (logEvents ls) = 0 ∧
    progressList (logEvents ls) = [] := by
  refine ⟨?_, ?_, ?_, ?_⟩ <;>
    simp [logEvents, completionCount, startedCount, moduleDoneCount, progressList,
      List.countP_map, List.filterMap_map, isCompletionEvent, isStartedEvent,
      isModuleDoneEvent, Function.comp]

theorem counts_runPreLogs (outputDir : String) :
    completionCount (runPreLogs outputDir) = 0 ∧
    startedCount (runPreLogs outputDir) = 0 ∧
    moduleDoneCount (runPreLogs outputDir) = 0 ∧
    progressList (runPreLogs outputDir) = [] := by
  refine ⟨?_, ?_, ?_, ?_⟩ <;>
    simp [runPreLogs, completionCount, startedCount, moduleDoneCount, progressList,
      List.countP_cons, List.filterMap_cons, isCompletionEvent, isStartedEvent,
      isModuleDoneEvent]

theorem counts_of_all_log {t : List Event}
    (h : ∀ ev ∈ t, ∃ m lv, ev = Event.logMessage m lv) :
    completionCount t = 0 ∧ startedCount t = 0 ∧
    moduleDoneCount t = 0 ∧ progressList t = [] := by
  induction t with
  | nil => exact ⟨rfl, rfl, rfl, rfl⟩
  | cons a l ih =>
    obtain ⟨m, lv, rfl⟩ := h _ (List.mem_cons_self a l)
    obtain ⟨h1, h2, h3, h4⟩ := ih fun ev hev => h ev (List.mem_cons_of_mem _ hev)
    refine ⟨?_, ?_, ?_, ?_⟩ <;>
      simp [completionCount, startedCount, moduleDoneCount, progressList,
        List.countP_cons, List.filterMap_cons, isCompletionEvent, isStartedEvent,
        isModuleDoneEvent] at h1 h2 h3 h4 ⊢ <;>
      assumption

theorem runPostLogs_all_log (ce : Bool) (rl cl : List (String × String)) :
    ∀ ev ∈ runPostLogs ce rl cl, ∃ m lv, ev = Event.logMessage m lv := by
  intro ev hev
  cases ce <;> simp [runPostLogs, logEvents] at hev
  · rcases hev with rfl | ⟨a, b, -, rfl⟩
    · exact ⟨_, _, rfl⟩
    · exact ⟨_, _, rfl⟩
  · rcases hev with rfl | ⟨a, b, -, rfl⟩ | rfl | ⟨a, b, -, rfl⟩
    · exact ⟨_, _, rfl⟩
    · exact ⟨_, _, rfl⟩
    · exact ⟨_, _, rfl⟩
    · exact ⟨_, _, rfl⟩

theorem counts_runPostLogs (ce : Bool) (rl cl : List (String × String)) :
    completionCount (runPostLogs ce rl cl) = 0 ∧
    startedCount (runPostLogs ce rl cl) = 0 ∧
    moduleDoneCount (runPostLogs ce rl cl) = 0 ∧
    progressList (runPostLogs ce rl cl) = [] :=
  counts_of_all_log (runPostLogs_all_log ce rl cl)

theorem counts_runFinalEvents (failed : List String) :
    completionCount (runFinalEvents failed) = 1 ∧
    startedCount (runFinalEvents failed) = 0 ∧
    moduleDoneCount (runFinalEvents failed) = 0 ∧
    progressList (runFinalEvents failed) = [] := by
  unfold runFinalEvents
  split <;>
    refine ⟨?_, ?_, ?_, ?_⟩ <;>
      simp [completionCount, startedCount, moduleDoneCount, progressList,
        List.countP_cons, List.filterMap_cons, isCompletionEvent, isStartedEvent,
        isModuleDoneEvent]

theorem getLast_concat_event (l : List Event) (x : Event) :
    (l ++ [x]).getLast? = some x :=
  List.getLast?_concat _

/-- The branch equations of `collectionRun`. -/
theorem collectionRun_stopped {mods : List ModuleBehavior} {outputDir : String}
    {stopFrom : Option Nat} {ce : Bool} {rl cl : List (String × String)}
    {evs : List Event}
    (h : collectionLoop stopFrom mods.length mods 1 0 [] = .stopped evs) :
    collectionRun mods outputDir stopFrom ce rl cl = runPreLogs outputDir ++ evs := by
  rw [collectionRun, h]

theorem collectionRun_raised {mods : List ModuleBehavior} {outputDir : String}
    {stopFrom : Option Nat} {ce : Bool} {rl cl : List (String × String)}
    {evs : List Event} {e : String}
    (h : collectionLoop stopFrom mods.length mods 1 0 [] = .raised evs e) :
    collectionRun mods outputDir stopFrom ce rl cl =
      runPreLogs outputDir ++ evs ++
        [Event.logMessage ("Collection failed: " ++ e) "ERROR",
         Event.collectionCompleted false ("Collection failed: " ++ e)] := by
  rw [collectionRun, h]

theorem collectionRun_finished {mods : List ModuleBehavior} {outputDir : String}
    {stopFrom : Option Nat} {ce : Bool} {rl cl : List (String × String)}
    {c : Nat} {failed : List String} {evs : List Event}
    (h : collectionLoop stopFrom mods.length mods 1 0 [] = .finished c failed evs) :
    collectionRun mods outputDir stopFrom ce rl cl =
      runPreLogs outputDir ++ evs ++ runPostLogs ce rl cl ++ runFinalEvents failed := by
  rw [collectionRun, h]

/-- A non-raising module's loop iteration reaches the bottom of the body
(or the `continue`): it emits exactly one `module_started` and one
`module_completed`, no terminal event, a progress event exactly when its
`initialize()` returned truthy, and calls only its own methods. -/
theorem moduleStep_nonRaising {m : ModuleBehavior} (i t : Nat)
    (hm : nonRaising m = true) :
    ∃ succ evs, moduleStep m i t = .proceed succ evs ∧
      startedCount evs = 1 ∧ moduleDoneCount evs = 1 ∧ completionCount evs = 0 ∧
      progressList evs = (if m.initializeResult = .ok true then [(i, t)] else []) ∧
      ∀ op id, Event.call op id ∈ evs → id = m.id := by
  obtain ⟨mid, mname, ir, er, cr⟩ := m
  cases ir with
  | exn e => simp [nonRaising, PyResult.isOk] at hm
  | ok b =>
    cases er with
    | exn e => simp [nonRaising, PyResult.isOk] at hm
    | ok s =>
      cases cr with
      | exn e => simp [nonRaising, PyResult.isOk] at hm
      | ok u =>
        cases b with
        | false =>
          refine ⟨false, _, rfl, ?_, ?_, ?_, ?_, ?_⟩
          · simp [startedCount, List.countP_cons, isStartedEvent]
          · simp [moduleDoneCount, List.countP_cons, isModuleDoneEvent]
          · simp [completionCount, List.countP_cons, isCompletionEvent]
          · simp [progressList, List.filterMap_cons]
          · intro op id h
            simp at h
            tauto
        | true =>
          cases s with
          | false =>
            refine ⟨false, _, rfl, ?_, ?_, ?_, ?_, ?_⟩
            · simp [startedCount, List.countP_cons, isStartedEvent]
            · simp [moduleDoneCount, List.countP_cons, isModuleDoneEvent]
            · simp [completionCount, List.countP_cons, isCompletionEvent]
            · simp [progressList, List.filterMap_cons]
            · intro op id h
              simp at h
              tauto
          | true =>
            refine ⟨true, _, rfl, ?_, ?_, ?_, ?_, ?_⟩
            · simp [startedCount, List.countP_cons, isStartedEvent]
            · simp [moduleDoneCount, List.countP_cons, isModuleDoneEvent]
            · simp [completionCount, List.countP_cons, isCompletionEvent]
            · simp [progressList, List.filterMap_cons]
            · intro op id h
              simp at h
              tauto

/-- Unfolding of one loop iteration on a cons cell. -/
theorem collectionLoop_cons (sf : Option Nat) (t : Nat) (m : ModuleBehavior)
    (rest : List ModuleBehavior) (i c : Nat) (f : List String) :
    collectionLoop sf t (m :: rest) i c f =
      if shouldStopAt sf i then .stopped stopEvents
      else
        match moduleStep m i t with
        | .raisedE evs e => .raised evs e
        | .proceed succ evs =>
            (collectionLoop sf t rest (i + 1) (if succ then c + 1 else c)
              (if succ then f else f ++ [m.name])).prepend evs := by
  rw [collectionLoop]

/-- Processing a non-raising prefix on which the stop flag never reads
true: the loop reaches the remaining modules with some counters, having
emitted one `module_started` and one `module_completed` per prefix
module, no terminal event, exactly the expected progress events, and
lifecycle calls only on prefix modules. -/
theorem collectionLoop_prefix (tail : List ModuleBehavior) (sf : Option Nat) (t : Nat) :
    ∀ (pre : List ModuleBehavior) (i c : Nat) (f : List String),
    (∀ x ∈ pre, nonRaising x = true) →
    (∀ j, j < pre.length → shouldStopAt sf (i + j) = false) →
    ∃ c' f' p, collectionLoop sf t (pre ++ tail) i c f
        = (collectionLoop sf t tail (i + pre.length) c' f').prepend p ∧
      startedCount p = pre.length ∧
      moduleDoneCount p = pre.length ∧
      completionCount p = 0 ∧
      progressList p = expectedProgress pre i t ∧
      (∀ op id, Event.call op id ∈ p → id ∈ pre.map ModuleBehavior.id) := by
  intro pre
  induction pre with
  | nil =>
    intro i c f _ _
    refine ⟨c, f, [], ?_, rfl, rfl, rfl, rfl, ?_⟩
    · simp [LoopResult.prepend_nil]
    · intro op id h
      exact absurd h (List.not_mem_nil _)
  | cons m ms ih =>
    intro i c f hnr hstop
    have hm : nonRaising m = true := hnr m (List.mem_cons_self m ms)
    obtain ⟨succ, evs, hms, hst, hmd, hcc, hpl, hcall⟩ := moduleStep_nonRaising i t hm
    have hstop0 : shouldStopAt sf i = false := by simpa using hstop 0 (by simp)
    obtain ⟨c', f', p, heq, hst', hmd', hcc', hpl', hcall'⟩ :=
      ih (i + 1) (if succ then c + 1 else c) (if succ then f else f ++ [m.name])
        (fun x hx => hnr x (List.mem_cons_of_mem m hx))
        (fun j hj => by
          have h := hstop (j + 1) (by simpa using Nat.succ_lt_succ hj)
          rwa [show i + (j + 1) = (i + 1) + j by omega] at h)
    have hidx : (i + 1) + ms.length = i + (m :: ms).length := by
      simp only [List.length_cons]
      omega
    refine ⟨c', f', evs ++ p, ?_, ?_, ?_, ?_, ?_, ?_⟩
    · calc collectionLoop sf t ((m :: ms) ++ tail) i c f
          = (collectionLoop sf t (ms ++ tail) (i + 1) (if succ then c + 1 else c)
              (if succ then f else f ++ [m.name])).prepend evs := by
            rw [List.cons_append, collectionLoop_cons, hstop0, hms]
            simp only [Bool.false_eq_true, if_false]
        _ = ((collectionLoop sf t tail ((i + 1) + ms.length) c' f').prepend p).prepend evs := by
            rw [heq]
        _ = (collectionLoop sf t tail (i + (m :: ms).length) c' f').prepend (evs ++ p) := by
            rw [hidx, LoopResult.prepend_prepend]
    · rw [startedCount_append, hst, hst']
      simp only [List.length_cons]
      omega
    · rw [moduleDoneCount_append, hmd, hmd']
      simp only [List.length_cons]
      omega
    · rw [completionCount_append, hcc, hcc']
    · rw [progressList_append, hpl, hpl']
      simp only [expectedProgress]
      split <;> simp
    · intro op id h
      rcases List.mem_append.mp h with h | h
      · simp [List.map_cons, hcall op id h]
      · simp only [List.map_cons, List.mem_cons]
        exact Or.inr (hcall' op id h)

/-- A loop-iteration body that raises has emitted the start log,
`module_started` and the method-call markers, but no terminal event, no
`module_completed` record and no progress event. -/
theorem moduleStep_raised_counts {m : ModuleBehavior} {i t : Nat}
    {q : List Event} {e : String} (h : moduleStep m i t = .raisedE q e) :
    completionCount q = 0 ∧ startedCount q = 1 ∧ moduleDoneCount q = 0 ∧
    progressList q = [] := by
  obtain ⟨mid, mname, ir, er, cr⟩ := m
  cases ir with
  | exn e0 =>
    cases h
    refine ⟨rfl, rfl, rfl, rfl⟩
  | ok b =>
    cases b with
    | false => cases h
    | true =>
      cases er with
      | exn e0 =>
        cases h
        refine ⟨rfl, rfl, rfl, rfl⟩
      | ok s =>
        cases cr with
        | exn e0 =>
          cases s <;> cases h <;>
            refine ⟨?_, ?_, ?_, ?_⟩ <;>
              simp [completionCount, startedCount, moduleDoneCount, progressList,
                List.countP_cons, List.filterMap_cons, isCompletionEvent,
                isStartedEvent, isModuleDoneEvent]
        | ok u => cases s <;> cases h

/-- A loop-iteration body that reaches the bottom emits no terminal
event. -/
theorem moduleStep_proceed_counts {m : ModuleBehavior} {i t : Nat}
    {s : Bool} {q : List Event} (h : moduleStep m i t = .proceed s q) :
    completionCount q = 0 := by
  obtain ⟨mid, mname, ir, er, cr⟩ := m
  cases ir with
  | exn e0 => cases h
  | ok b =>
    cases b with
    | false =>
      cases h
      rfl
    | true =>
      cases er with
      | exn e0 => cases h
      | ok sx =>
        cases cr with
        | exn e0 => cases sx <;> cases h
        | ok u =>
          cases sx <;> cases h <;>
            simp [completionCount, List.countP_cons, isCompletionEvent]

/-- Whichever way the module loop ends, the events it emitted contain no
terminal `collection_completed` — except in the stop branch, whose events
end with `stopEvents` (one terminal emission) and contain no other. -/
theorem collectionLoop_cases (sf : Option Nat) (t : Nat) :
    ∀ (mods : List ModuleBehavior) (i c : Nat) (f : List String),
    (∀ c' f' evs, collectionLoop sf t mods i c f = .finished c' f' evs →
        completionCount evs = 0) ∧
    (∀ evs, collectionLoop sf t mods i c f = .stopped evs →
        ∃ p, evs = p ++ stopEvents ∧ completionCount p = 0) ∧
    (∀ evs e, collectionLoop sf t mods i c f = .raised evs e →
        completionCount evs = 0) := by
  intro mods
  induction mods with
  | nil =>
    intro i c f
    refine ⟨?_, ?_, ?_⟩
    · intro c' f' evs h
      rw [collectionLoop] at h
      cases h
      rfl
    · intro evs h
      rw [collectionLoop] at h
      cases h
    · intro evs e h
      rw [collectionLoop] at h
      cases h
  | cons m rest ih =>
    intro i c f
    by_cases hstopb : shouldStopAt sf i = true
    · have hl : collectionLoop sf t (m :: rest) i c f = .stopped stopEvents := by
        rw [collectionLoop_cons, if_pos hstopb]
      refine ⟨?_, ?_, ?_⟩
      · intro c' f' evs h
        rw [hl] at h
        cases h
      · intro evs h
        rw [hl] at h
        cases h
        exact ⟨[], by simp, rfl⟩
      · intro evs e h
        rw [hl] at h
        cases h
    · have hsf : shouldStopAt sf i = false := by simpa using hstopb
      cases hms : moduleStep m i t with
      | raisedE q e0 =>
        have hl : collectionLoop sf t (m :: rest) i c f = .raised q e0 := by
          rw [collectionLoop_cons, hsf, hms]
          simp
        refine ⟨?_, ?_, ?_⟩
        · intro c' f' evs h
          rw [hl] at h
          cases h
        · intro evs h
          rw [hl] at h
          cases h
        · intro evs e h
          rw [hl] at h
          cases h
          exact (moduleStep_raised_counts hms).1
      | proceed s q =>
        have hl : collectionLoop sf t (m :: rest) i c f =
            (collectionLoop sf t rest (i + 1) (if s then c + 1 else c)
              (if s then f else f ++ [m.name])).prepend q := by
          rw [collectionLoop_cons, hsf, hms]
          simp
        obtain ⟨ih1, ih2, ih3⟩ :=
          ih (i + 1) (if s then c + 1 else c) (if s then f else f ++ [m.name])
        have hq : completionCount q = 0 := moduleStep_proceed_counts hms
        refine ⟨?_, ?_, ?_⟩
        · intro c' f' evs h
          rw [hl] at h
          cases hrec : collectionLoop sf t rest (i + 1) (if s then c + 1 else c)
              (if s then f else f ++ [m.name]) with
          | finished c'' f'' evs'' =>
            rw [hrec] at h
            cases h
            rw [completionCount_append, hq, ih1 _ _ _ hrec]
          | stopped evs'' =>
            rw [hrec] at h
            cases h
          | raised evs'' e'' =>
            rw [hrec] at h
            cases h
        · intro evs h
          rw [hl] at h
          cases hrec : collectionLoop sf t rest (i + 1) (if s then c + 1 else c)
              (if s then f else f ++ [m.name]) with
          | finished c'' f'' evs'' =>
            rw [hrec] at h
            cases h
          | stopped evs'' =>
            rw [hrec] at h
            cases h
            obtain ⟨p, rfl, hp⟩ := ih2 _ hrec
            exact ⟨q ++ p, by simp, by rw [completionCount_append, hq, hp]⟩
          | raised evs'' e'' =>
            rw [hrec] at h
            cases h
        · intro evs e h
          rw [hl] at h
          cases hrec : collectionLoop sf t rest (i + 1) (if s then c + 1 else c)
              (if s then f else f ++ [m.name]) with
          | finished c'' f'' evs'' =>
            rw [hrec] at h
            cases h
          | stopped evs'' =>
            rw [hrec] at h
            cases h
          | raised evs'' e'' =>
            rw [hrec] at h
            cases h
            rw [completionCount_append, hq, ih3 _ _ hrec]

theorem getLast_append_two (l : List Event) (x y : Event) :
    (l ++ [x, y]).getLast? = some y := by
  rw [show l ++ [x, y] = (l ++ [x]) ++ [y] by simp]
  exact List.getLast?_concat _

/-- C6: every run that begins executing emits exactly one
`collection_completed` event — the stop branch, the normal fall-through
and the run-level exception handler each emit theirs exactly once — and
that terminal event is the last event of the run's trace. -/
theorem terminal_event_exactly_once_and_last
    (mods : List ModuleBehavior) (outputDir : String) (stopFrom : Option Nat)
    (ce : Bool) (rl cl : List (String × String)) :
    completionCount (collectionRun mods outputDir stopFrom ce rl cl) = 1 ∧
    ∃ s msg, (collectionRun mods outputDir stopFrom ce rl cl).getLast? =
      some (Event.collectionCompleted s msg) := by
  obtain ⟨hf, hs, hr⟩ := collectionLoop_cases stopFrom mods.length mods 1 0 []
  obtain ⟨hpre1, -, -, -⟩ := counts_runPreLogs outputDir
  cases hloop : collectionLoop stopFrom mods.length mods 1 0 [] with
  | finished c failed evs =>
    rw [collectionRun_finished hloop]
    have hevs := hf _ _ _ hloop
    obtain ⟨hpost1, -, -, -⟩ := counts_runPostLogs ce rl cl
    constructor
    · rw [completionCount_append, completionCount_append, completionCount_append,
        hpre1, hevs, hpost1, (counts_runFinalEvents failed).1]
    · unfold runFinalEvents
      split
      · exact ⟨true, "Collection completed successfully!", getLast_append_two _ _ _⟩
      · exact ⟨true,
          "Collection completed with " ++ toString failed.length ++ " failed module(s)",
          getLast_append_two _ _ _⟩
  | stopped evs =>
    rw [collectionRun_stopped hloop]
    obtain ⟨p, rfl, hp⟩ := hs _ hloop
    constructor
    · rw [completionCount_append, completionCount_append, hpre1, hp]
      rfl
    · refine ⟨false, "Stopped by user", ?_⟩
      rw [show runPreLogs outputDir ++ (p ++ stopEvents)
          = (runPreLogs outputDir ++ p) ++ stopEvents by simp]
      exact getLast_append_two _ _ _
  | raised evs e =>
    rw [collectionRun_raised hloop]
    have hevs := hr _ _ hloop
    constructor
    · rw [completionCount_append, completionCount_append, hpre1, hevs]
      simp [completionCount, List.countP_cons, isCompletionEvent]
    · exact ⟨false, "Collection failed: " ++ e, getLast_append_two _ _ _⟩

/-- C2 (counterexample): in a two-module run whose second module fails
`initialize()`, both modules reach a terminal state (two
`module_completed` records) but only one progress event is emitted — the
`continue` at line 70 skips `progress_updated` — so the final progress
event's completed component (1) differs from the number of modules that
reached `Completed` or `Failed` (2). -/
theorem progress_skipped_on_init_failure_counterexample :
    progressList (collectionRun [mOk, mInitFail] "out" none false [] []) = [(1, 2)] ∧
    moduleDoneCount (collectionRun [mOk, mInitFail] "out" none false [] []) = 2 ∧
    (progressList (collectionRun [mOk, mInitFail] "out" none false [] [])).getLast?.map
        Prod.fst ≠
      some (moduleDoneCount (collectionRun [mOk, mInitFail] "out" none false [] [])) := by
  refine ⟨by decide, by decide, by decide⟩

/-- `expectedProgress` distributes over list append, shifting the index
by the length of the first part. -/
theorem expectedProgress_append (a b : List ModuleBehavior) (i t : Nat) :
    expectedProgress (a ++ b) i t =
      expectedProgress a i t ++ expectedProgress b (i + a.length) t := by
  induction a generalizing i with
  | nil => simp [expectedProgress]
  | cons m ms ih =>
    have hidx : (i + 1) + ms.length = i + (m :: ms).length := by
      simp only [List.length_cons]
      omega
    simp only [List.cons_append, expectedProgress, List.append_eq]
    split <;> rw [ih, hidx] <;> simp

/-- `lastInitSuccessIndex` of a list ending in `m` is `m`'s own (1-based)
position when `m` passed initialisation, and otherwise the last passing
index of the front part. -/
theorem lastInitSuccessIndex_concat (a : List ModuleBehavior) (m : ModuleBehavior) :
    lastInitSuccessIndex (a ++ [m]) =
      if m.initializeResult = .ok true then some (a.length + 1)
      else lastInitSuccessIndex a := by
  induction a with
  | nil =>
    simp [lastInitSuccessIndex]
  | cons x xs ih =>
    by_cases hp : m.initializeResult = .ok true
    · rw [if_pos hp] at ih
      rw [if_pos hp]
      simp [List.cons_append, lastInitSuccessIndex, ih]
    · rw [if_neg hp] at ih
      rw [if_neg hp]
      simp only [List.cons_append, lastInitSuccessIndex, List.append_eq, ih]

/-- The completed component of the last expected progress event is the
index of the last module that passed initialisation. -/
theorem expectedProgress_getLast_fst (mods : List ModuleBehavior) (i t : Nat) :
    (expectedProgress mods i t).getLast?.map Prod.fst =
      (lastInitSuccessIndex mods).map fun j => i + j - 1 := by
  induction mods using List.reverseRecOn with
  | nil => rfl
  | append_singleton l m ih =>
    rw [expectedProgress_append, lastInitSuccessIndex_concat]
    by_cases hp : m.initializeResult = .ok true
    · rw [if_pos hp]
      have hE : expectedProgress [m] (i + l.length) t = [(i + l.length, t)] := by
        simp [expectedProgress, hp]
      rw [hE, List.getLast?_concat]
      simp only [Option.map_some']
      exact congrArg some (by omega)
    · rw [if_neg hp]
      have hE : expectedProgress [m] (i + l.length) t = [] := by
        simp [expectedProgress, hp]
      rw [hE, List.append_nil]
      exact ih

/-- C2 (amended): in a run that is not stopped and whose modules' three
lifecycle calls all return, an overall progress event `(i, total)` — `i`
the module's 1-based index — is emitted after exactly those modules
whose `initialize()` returned success, in order; no progress event is
emitted after a module whose `initialize()` failed.  Consequently the
final progress event's completed component is the 1-based index of the
last module that passed initialisation (none when no module did), not
the number of modules whose lifecycle reached `Completed` or `Failed`. -/
theorem progress_events_match_init_successes
    (mods : List ModuleBehavior) (outputDir : String) (ce : Bool)
    (rl cl : List (String × String))
    (hmods : ∀ x ∈ mods, nonRaising x = true) :
    progressList (collectionRun mods outputDir none ce rl cl) =
      expectedProgress mods 1 mods.length ∧
    (progressList (collectionRun mods outputDir none ce rl cl)).getLast?.map
        Prod.fst = lastInitSuccessIndex mods := by
  obtain ⟨c', f', p, heq, -, -, -, hpl, -⟩ :=
    collectionLoop_prefix [] none mods.length mods 1 0 [] hmods (fun j hj => rfl)
  have hloop : collectionLoop none mods.length mods 1 0 [] = .finished c' f' (p ++ []) := by
    rw [show mods = mods ++ [] by simp] at heq
    simpa [collectionLoop, LoopResult.prepend] using heq
  have h1 : progressList (collectionRun mods outputDir none ce rl cl) =
      expectedProgress mods 1 mods.length := by
    rw [collectionRun_finished hloop]
    rw [progressList_append, progressList_append, progressList_append,
      (counts_runPreLogs outputDir).2.2.2, (counts_runPostLogs ce rl cl).2.2.2,
      (counts_runFinalEvents f').2.2.2, progressList_append, hpl]
    simp [progressList]
  refine ⟨h1, ?_⟩
  rw [h1, expectedProgress_getLast_fst]
  cases lastInitSuccessIndex mods with
  | none => rfl
  | some j =>
    simp only [Option.map_some']
    congr 1
    omega

/-- C2 (witness): the amended statement on two concrete two-module runs —
one where the second module fails initialisation (final progress reports
index 1) and one where the first does (final progress reports index 2
even though module 1 reached `Failed`). -/
theorem progress_events_match_init_successes_witness :
    (progressList (collectionRun [mOk, mInitFail] "out" none false [] []) =
        expectedProgress [mOk, mInitFail] 1 2 ∧
      (progressList (collectionRun [mOk, mInitFail] "out" none false [] [])).getLast?.map
        Prod.fst = lastInitSuccessIndex [mOk, mInitFail]) ∧
    (progressList (collectionRun [mInitFail, mOk] "out" none false [] []) =
        expectedProgress [mInitFail, mOk] 1 2 ∧
      (progressList (collectionRun [mInitFail, mOk] "out" none false [] [])).getLast?.map
        Prod.fst = lastInitSuccessIndex [mInitFail, mOk]) :=
  ⟨progress_events_match_init_successes [mOk, mInitFail] "out" false [] [] (by decide),
   progress_events_match_init_successes [mInitFail, mOk] "out" false [] [] (by decide)⟩

/-- C1 (counterexample): in a two-module run whose first module's
`execute()` raises, the exception is NOT converted into a failed-module
record at the module loop: module 1 gets no `module_completed(id, False)`
record, module 2 is never started, and the run ends with a failed-run
terminal event from the run-level handler instead. -/
theorem module_exception_aborts_loop_counterexample :
    Event.moduleStarted "m2" ∉ collectionRun [mExecRaise, mOk2] "out" none false [] [] ∧
    Event.moduleCompleted "mer" false ∉ collectionRun [mExecRaise, mOk2] "out" none false [] [] ∧
    (collectionRun [mExecRaise, mOk2] "out" none false [] []).getLast? =
      some (Event.collectionCompleted false "Collection failed: boom") := by
  refine ⟨by decide, by decide, by decide⟩

/-- C1 (amended): an exception raised by a module's `initialize()` or
`execute()` is caught only by the run-level catch-all, not at the module
loop: the run aborts — exactly the earlier modules and the raising module
were started, only the earlier modules have failed/completed-module
records (the raising module has none), the remaining modules never
execute — and exactly one terminal event is emitted, reporting a failed
run with the exception's message; nothing propagates past the
orchestrator boundary. -/
theorem module_exception_caught_at_run_boundary
    (pre : List ModuleBehavior) (m : ModuleBehavior) (rest : List ModuleBehavior)
    (outputDir : String) (ce : Bool) (rl cl : List (String × String)) (e : String)
    (hpre : ∀ x ∈ pre, nonRaising x = true)
    (hm : m.initializeResult = .exn e ∨
          (m.initializeResult = .ok true ∧ m.executeResult = .exn e)) :
    startedCount (collectionRun (pre ++ m :: rest) outputDir none ce rl cl) =
        pre.length + 1 ∧
    moduleDoneCount (collectionRun (pre ++ m :: rest) outputDir none ce rl cl) =
        pre.length ∧
    completionCount (collectionRun (pre ++ m :: rest) outputDir none ce rl cl) = 1 ∧
    (collectionRun (pre ++ m :: rest) outputDir none ce rl cl).getLast? =
      some (Event.collectionCompleted false ("Collection failed: " ++ e)) := by
  obtain ⟨c', f', p, heq, hst, hmd, hcc, -, -⟩ :=
    collectionLoop_prefix (m :: rest) none (pre ++ m :: rest).length pre 1 0 [] hpre
      (fun j hj => rfl)
  obtain ⟨q, hq, hq1, hq2, hq3⟩ :
      ∃ q, moduleStep m (1 + pre.length) (pre ++ m :: rest).length = .raisedE q e ∧
        startedCount q = 1 ∧ moduleDoneCount q = 0 ∧ completionCount q = 0 := by
    rcases hm with h1 | ⟨h1, h2⟩
    · exact ⟨[Event.logMessage ("Starting module: " ++ m.name) "INFO",
          Event.moduleStarted m.id, Event.call .initializeOp m.id],
        by simp [moduleStep, h1], by simp [startedCount, List.countP_cons,
          isStartedEvent], by simp [moduleDoneCount, List.countP_cons,
          isModuleDoneEvent], by simp [completionCount, List.countP_cons,
          isCompletionEvent]⟩
    · exact ⟨[Event.logMessage ("Starting module: " ++ m.name) "INFO",
          Event.moduleStarted m.id, Event.call .initializeOp m.id,
          Event.call .executeOp m.id],
        by simp [moduleStep, h1, h2], by simp [startedCount, List.countP_cons,
          isStartedEvent], by simp [moduleDoneCount, List.countP_cons,
          isModuleDoneEvent], by simp [completionCount, List.countP_cons,
          isCompletionEvent]⟩
  have hloop : collectionLoop none (pre ++ m :: rest).length (pre ++ m :: rest) 1 0 []
      = .raised (p ++ q) e := by
    rw [heq, collectionLoop_cons, show shouldStopAt none (1 + pre.length) = false from rfl,
      hq]
    rfl
  rw [collectionRun_raised hloop]
  obtain ⟨hpre1, hpre2, hpre3, -⟩ := counts_runPreLogs outputDir
  refine ⟨?_, ?_, ?_, getLast_append_two _ _ _⟩
  · rw [startedCount_append, startedCount_append, startedCount_append,
      hpre2, hst, hq1]
    simp [startedCount, List.countP_cons, isStartedEvent]
  · rw [moduleDoneCount_append, moduleDoneCount_append, moduleDoneCount_append,
      hpre3, hmd, hq2]
    simp [moduleDoneCount, List.countP_cons, isModuleDoneEvent]
  · rw [completionCount_append, completionCount_append, completionCount_append,
      hpre1, hcc, hq3]
    simp [completionCount, List.countP_cons, isCompletionEvent]

/-- C1 (witness): the amended statement on a concrete run where the first
module's `execute()` raises and a second module follows. -/
theorem module_exception_caught_at_run_boundary_witness :
    startedCount (collectionRun ([] ++ mExecRaise :: [mOk2]) "out" none false [] []) =
        0 + 1 ∧
    moduleDoneCount (collectionRun ([] ++ mExecRaise :: [mOk2]) "out" none false [] []) =
        0 ∧
    completionCount (collectionRun ([] ++ mExecRaise :: [mOk2]) "out" none false [] []) = 1 ∧
    (collectionRun ([] ++ mExecRaise :: [mOk2]) "out" none false [] []).getLast? =
      some (Event.collectionCompleted false ("Collection failed: " ++ "boom")) :=
  module_exception_caught_at_run_boundary [] mExecRaise [mOk2] "out" false [] [] "boom"
    (by decide) (Or.inr ⟨rfl, rfl⟩)

/-- C7: if `stop()` takes effect before module `k = pre.length + 1` of
the run begins (the flag reads true from the k-th top-of-loop check on),
then the earlier modules each have a terminal `module_completed` record,
modules `k..n` are never started and get no terminal record (hence are
absent from the failure/success tallies), the run's terminal event
reports `success=false` with the "Stopped by user" message, and the run
returns immediately after that event — nothing further happens to the
already-collected artifacts, which are retained (the stop branch performs
no deletion, no report and no compression). -/
theorem stop_before_module_k
    (pre : List ModuleBehavior) (m : ModuleBehavior) (rest : List ModuleBehavior)
    (outputDir : String) (ce : Bool) (rl cl : List (String × String))
    (hpre : ∀ x ∈ pre, nonRaising x = true) :
    startedCount (collectionRun (pre ++ m :: rest) outputDir
        (some (pre.length + 1)) ce rl cl) = pre.length ∧
    moduleDoneCount (collectionRun (pre ++ m :: rest) outputDir
        (some (pre.length + 1)) ce rl cl) = pre.length ∧
    completionCount (collectionRun (pre ++ m :: rest) outputDir
        (some (pre.length + 1)) ce rl cl) = 1 ∧
    (collectionRun (pre ++ m :: rest) outputDir
        (some (pre.length + 1)) ce rl cl).getLast? =
      some (Event.collectionCompleted false "Stopped by user") ∧
    ∃ p, collectionRun (pre ++ m :: rest) outputDir
        (some (pre.length + 1)) ce rl cl =
      runPreLogs outputDir ++ p ++ stopEvents := by
  obtain ⟨c', f', p, heq, hst, hmd, hcc, -, -⟩ :=
    collectionLoop_prefix (m :: rest) (some (pre.length + 1))
      (pre ++ m :: rest).length pre 1 0 [] hpre
      (fun j hj => by
        simp only [shouldStopAt, decide_eq_false_iff_not]
        omega)
  have hloop : collectionLoop (some (pre.length + 1)) (pre ++ m :: rest).length
      (pre ++ m :: rest) 1 0 [] = .stopped (p ++ stopEvents) := by
    rw [heq, collectionLoop_cons,
      show shouldStopAt (some (pre.length + 1)) (1 + pre.length) = true by
        simp only [shouldStopAt, decide_eq_true_eq]
        omega]
    rfl
  rw [collectionRun_stopped hloop]
  obtain ⟨hpre1, hpre2, hpre3, -⟩ := counts_runPreLogs outputDir
  have hs0 : startedCount stopEvents = 0 := by decide
  have hd0 : moduleDoneCount stopEvents = 0 := by decide
  have hc1 : completionCount stopEvents = 1 := by decide
  refine ⟨?_, ?_, ?_, ?_, ⟨p, by simp⟩⟩
  · rw [startedCount_append, startedCount_append, hpre2, hst, hs0]
    try omega
  · rw [moduleDoneCount_append, moduleDoneCount_append, hpre3, hmd, hd0]
    try omega
  · rw [completionCount_append, completionCount_append, hpre1, hcc, hc1]
    try omega
  · rw [show runPreLogs outputDir ++ (p ++ stopEvents)
        = (runPreLogs outputDir ++ p) ++ stopEvents by simp]
    exact getLast_append_two _ _ _

/-- C7 (witness): the cancellation behaviour on a concrete run stopped
before its second module. -/
theorem stop_before_module_k_witness :
    startedCount (collectionRun ([mOk] ++ mOk2 :: []) "out" (some 2) false [] []) = 1 ∧
    moduleDoneCount (collectionRun ([mOk] ++ mOk2 :: []) "out" (some 2) false [] []) = 1 ∧
    completionCount (collectionRun ([mOk] ++ mOk2 :: []) "out" (some 2) false [] []) = 1 ∧
    (collectionRun ([mOk] ++ mOk2 :: []) "out" (some 2) false [] []).getLast? =
      some (Event.collectionCompleted false "Stopped by user") ∧
    ∃ p, collectionRun ([mOk] ++ mOk2 :: []) "out" (some 2) false [] [] =
      runPreLogs "out" ++ p ++ stopEvents :=
  stop_before_module_k [mOk] mOk2 [] "out" false [] [] (by decide)

/-- Whatever events the loop emitted appear in the run's trace. -/
theorem mem_collectionRun_of_mem_loop {mods : List ModuleBehavior}
    {outputDir : String} {sf : Option Nat} {ce : Bool}
    {rl cl : List (String × String)} {ev : Event}
    (h : ev ∈ (collectionLoop sf mods.length mods 1 0 []).events) :
    ev ∈ collectionRun mods outputDir sf ce rl cl := by
  cases hloop : collectionLoop sf mods.length mods 1 0 [] with
  | finished c f evs =>
    rw [hloop] at h
    rw [collectionRun_finished hloop]
    simp only [LoopResult.events] at h
    simp [h]
  | stopped evs =>
    rw [hloop] at h
    rw [collectionRun_stopped hloop]
    simp only [LoopResult.events] at h
    simp [h]
  | raised evs e =>
    rw [hloop] at h
    rw [collectionRun_raised hloop]
    simp only [LoopResult.events] at h
    simp [h]

/-- When `initialize()` and `execute()` both returned, the iteration body
reaches the `cleanup()` call — whether or not `cleanup()` itself then
raises. -/
theorem moduleStep_calls_cleanup {m : ModuleBehavior} {i t : Nat} (b : Bool)
    (hinit : m.initializeResult = .ok true) (hexec : m.executeResult = .ok b) :
    Event.call .cleanupOp m.id ∈ (moduleStep m i t).events := by
  cases hcl : m.cleanupResult <;> cases b <;>
    simp [moduleStep, hinit, hexec, hcl, StepOut.events]

/-- Events of the first iteration body appear in the loop's events when
the stop flag reads false at its check. -/
theorem mem_loop_head_events {sf : Option Nat} {t : Nat} {m : ModuleBehavior}
    {rest : List ModuleBehavior} {i c : Nat} {f : List String}
    (hsf : shouldStopAt sf i = false) {ev : Event}
    (h : ev ∈ (moduleStep m i t).events) :
    ev ∈ (collectionLoop sf t (m :: rest) i c f).events := by
  rw [collectionLoop_cons, hsf]
  simp only [Bool.false_eq_true, if_false]
  cases hms : moduleStep m i t with
  | raisedE q e =>
    rw [hms] at h
    simpa [StepOut.events, LoopResult.events] using h
  | proceed s q =>
    rw [hms] at h
    simp only [StepOut.events] at h
    rw [LoopResult.events_prepend]
    exact List.mem_append_left _ h

/-- C3 (counterexample): `cleanup()` is not called when `execute()`
raises (first run), and an exception raised by `cleanup()` itself is not
merely logged — it escalates to the run-level handler and turns the run's
terminal event into a failed run (second run). -/
theorem cleanup_escalation_counterexample :
    Event.call .cleanupOp "mer" ∉ collectionRun [mExecRaise] "out" none false [] [] ∧
    (collectionRun [mCleanupRaise] "out" none false [] []).getLast? =
      some (Event.collectionCompleted false "Collection failed: cboom") := by
  refine ⟨by decide, by decide⟩

/-- C3 (amended): for a module whose `initialize()` succeeded,
`cleanup()` is called after `execute()` when `execute()` returns (whether
success or failure), but not when `execute()` raises; and an exception
raised by `cleanup()` itself propagates to the run-level handler,
aborting the run with a failed-run terminal event rather than being
logged and contained. -/
theorem cleanup_follows_execute_return
    (pre : List ModuleBehavior) (m : ModuleBehavior) (rest : List ModuleBehavior)
    (outputDir : String) (ce : Bool) (rl cl : List (String × String))
    (hpre : ∀ x ∈ pre, nonRaising x = true)
    (hid : m.id ∉ pre.map ModuleBehavior.id)
    (hinit : m.initializeResult = .ok true) :
    (∀ b, m.executeResult = .ok b →
        Event.call .cleanupOp m.id ∈
          collectionRun (pre ++ m :: rest) outputDir none ce rl cl) ∧
    (∀ e, m.executeResult = .exn e →
        Event.call .cleanupOp m.id ∉
          collectionRun (pre ++ m :: rest) outputDir none ce rl cl) ∧
    (∀ b e, m.executeResult = .ok b → m.cleanupResult = .exn e →
        (collectionRun (pre ++ m :: rest) outputDir none ce rl cl).getLast? =
          some (Event.collectionCompleted false ("Collection failed: " ++ e))) := by
  obtain ⟨c', f', p, heq, -, -, -, -, hcalls⟩ :=
    collectionLoop_prefix (m :: rest) none (pre ++ m :: rest).length pre 1 0 [] hpre
      (fun j hj => rfl)
  refine ⟨?_, ?_, ?_⟩
  · intro b hexec
    apply mem_collectionRun_of_mem_loop
    rw [heq, LoopResult.events_prepend]
    exact List.mem_append_right _
      (mem_loop_head_events (show shouldStopAt none (1 + pre.length) = false from rfl)
        (moduleStep_calls_cleanup b hinit hexec))
  · intro e hexec
    have hstep : moduleStep m (1 + pre.length) (pre ++ m :: rest).length = .raisedE
        [Event.logMessage ("Starting module: " ++ m.name) "INFO",
         Event.moduleStarted m.id, Event.call .initializeOp m.id,
         Event.call .executeOp m.id] e := by
      simp [moduleStep, hinit, hexec]
    have hloop : collectionLoop none (pre ++ m :: rest).length (pre ++ m :: rest) 1 0 []
        = .raised (p ++
            [Event.logMessage ("Starting module: " ++ m.name) "INFO",
             Event.moduleStarted m.id, Event.call .initializeOp m.id,
             Event.call .executeOp m.id]) e := by
      rw [heq, collectionLoop_cons,
        show shouldStopAt none (1 + pre.length) = false from rfl, hstep]
      rfl
    rw [collectionRun_raised hloop]
    intro hmem
    rcases List.mem_append.mp hmem with hmem | hmem
    · rcases List.mem_append.mp hmem with hmem | hmem
      · simp [runPreLogs] at hmem
      · rcases List.mem_append.mp hmem with hmem | hmem
        · exact hid (hcalls _ _ hmem)
        · simp at hmem
    · simp at hmem
  · intro b e hexec hcl
    obtain ⟨q, hq⟩ : ∃ q, moduleStep m (1 + pre.length) (pre ++ m :: rest).length
        = .raisedE q e := by
      cases b with
      | false =>
        exact ⟨[Event.logMessage ("Starting module: " ++ m.name) "INFO",
          Event.moduleStarted m.id, Event.call .initializeOp m.id,
          Event.call .executeOp m.id,
          Event.logMessage ("Module failed: " ++ m.name) "ERROR",
          Event.call .cleanupOp m.id], by simp [moduleStep, hinit, hexec, hcl]⟩
      | true =>
        exact ⟨[Event.logMessage ("Starting module: " ++ m.name) "INFO",
          Event.moduleStarted m.id, Event.call .initializeOp m.id,
          Event.call .executeOp m.id,
          Event.logMessage ("Module completed successfully: " ++ m.name) "SUCCESS",
          Event.call .cleanupOp m.id], by simp [moduleStep, hinit, hexec, hcl]⟩
    have hloop : collectionLoop none (pre ++ m :: rest).length (pre ++ m :: rest) 1 0 []
        = .raised (p ++ q) e := by
      rw [heq, collectionLoop_cons,
        show shouldStopAt none (1 + pre.length) = false from rfl, hq]
      rfl
    rw [collectionRun_raised hloop]
    exact getLast_append_two _ _ _

/-- C3 (witness): the amended statement on a concrete single-module run
whose module succeeds in `execute()` but raises in `cleanup()`: the
cleanup call happens and its exception flips the terminal event to a
failed run. -/
theorem cleanup_follows_execute_return_witness :
    Event.call .cleanupOp "mcr" ∈
      collectionRun ([] ++ mCleanupRaise :: []) "out" none false [] [] ∧
    (collectionRun ([] ++ mCleanupRaise :: []) "out" none false [] []).getLast? =
      some (Event.collectionCompleted false ("Collection failed: " ++ "cboom")) :=
  ⟨(cleanup_follows_execute_return [] mCleanupRaise [] "out" false [] []
      (by decide) (by decide) rfl).1 true rfl,
   (cleanup_follows_execute_return [] mCleanupRaise [] "out" false [] []
      (by decide) (by decide) rfl).2.2 true "cboom" rfl rfl⟩

/-- C4 (counterexample): the claim puts a total size of exactly 10 GiB in
the fastest band, but the code compares with a strict `>`, so exactly
10 GiB (10 · 1024³ bytes) selects the balanced level 3 while one byte
more selects the fastest level 1. -/
theorem compress_level_ten_gib_counterexample :
    compress_level (10 * 1024 ^ 3) = 3 ∧
    compress_level (10 * 1024 ^ 3 + 1) = 1 := by
  constructor <;> decide

/-- C4 (amended): the compression level chosen for an archive job is a
deterministic function of the total byte size S that is monotonic (a
larger S never yields a stronger, i.e. numerically higher and slower,
level than a smaller S), with half-open bands: S > 10 GiB chooses the
fastest level 1, 5 GiB < S ≤ 10 GiB the balanced level 3, and S ≤ 5 GiB
the strongest practical level 6. -/
theorem compress_level_monotone_bands (s₁ s₂ : Nat) (hle : s₁ ≤ s₂) :
    compress_level s₂ ≤ compress_level s₁ ∧
    (10 * 1024 ^ 3 < s₁ → compress_level s₁ = 1) ∧
    (5 * 1024 ^ 3 < s₁ → s₁ ≤ 10 * 1024 ^ 3 → compress_level s₁ = 3) ∧
    (s₁ ≤ 5 * 1024 ^ 3 → compress_level s₁ = 6) := by
  refine ⟨?_, ?_, ?_, ?_⟩ <;> unfold compress_level <;> split_ifs <;> omega

/-- C4 (witness): the amended statement at concrete sizes of 11 GiB,
6 GiB and 1 GiB. -/
theorem compress_level_monotone_bands_witness :
    compress_level (11 * 1024 ^ 3) ≤ compress_level (6 * 1024 ^ 3) ∧
    compress_level (11 * 1024 ^ 3) = 1 ∧
    compress_level (6 * 1024 ^ 3) = 3 ∧
    compress_level (1024 ^ 3) = 6 :=
  ⟨(compress_level_monotone_bands (6 * 1024 ^ 3) (11 * 1024 ^ 3) (by norm_num)).1,
   (compress_level_monotone_bands (11 * 1024 ^ 3) (11 * 1024 ^ 3) le_rfl).2.1 (by norm_num),
   (compress_level_monotone_bands (6 * 1024 ^ 3) (6 * 1024 ^ 3) le_rfl).2.2.1
     (by norm_num) (by norm_num),
   (compress_level_monotone_bands (1024 ^ 3) (1024 ^ 3) le_rfl).2.2.2 (by norm_num)⟩

/-- C5: a start request issued while a run is already active returns
`False` and performs no side effects: no modules are resolved, no thread
is created or started, and the controller state (hence the active run) is
left untouched. -/
theorem start_collection_rejects_when_running
    (imp : String → Option ModuleBehavior) (st : ControllerState)
    (module_ids : List String) (h : st.is_running = true) :
    start_collection imp st module_ids = (false, st, []) := by
  simp [start_collection, h]

/-- C5 (witness): a concrete busy controller rejects a valid request. -/
theorem start_collection_rejects_when_running_witness :
    start_collection (fun _ => some mOk) ⟨true, true⟩ ["network"] =
      (false, ⟨true, true⟩, []) :=
  start_collection_rejects_when_running (fun _ => some mOk) ⟨true, true⟩ ["network"] rfl

/-- Every entry of a `calculate_file_hashes` result comes from the
`hash_objects` dict of an actually readable file. -/
theorem mem_calculate_file_hashes {d : DigestImpl} {fs : FileSystem}
    {file_path : String} {algorithms : Option (List String)} {p : String × String}
    (hp : p ∈ calculate_file_hashes d fs file_path algorithms) :
    ∃ bytes, fs file_path = some (FileAccess.content bytes) ∧
      p ∈ hash_objects d bytes := by
  cases hfs : fs file_path with
  | none =>
    simp only [calculate_file_hashes, calculate_body, hfs] at hp
    rw [ite_self] at hp
    exact absurd hp (List.not_mem_nil p)
  | some fa =>
    cases fa with
    | permissionDenied =>
      simp only [calculate_file_hashes, calculate_body, hfs] at hp
      rw [ite_self] at hp
      exact absurd hp (List.not_mem_nil p)
    | content bytes =>
      simp only [calculate_file_hashes, calculate_body, hfs] at hp
      refine ⟨bytes, rfl, ?_⟩
      split at hp <;> split at hp <;>
        first
          | exact absurd hp (List.not_mem_nil p)
          | exact (List.mem_filter.mp hp).1

/-- Every key of the `hash_objects` dict is a supported algorithm. -/
theorem hash_objects_key_supported {d : DigestImpl} {bytes : List Nat}
    {p : String × String} (hp : p ∈ hash_objects d bytes) :
    p.1 ∈ supported_algorithms := by
  simp only [hash_objects, List.mem_cons, List.not_mem_nil, or_false] at hp
  rcases hp with h | h | h <;> subst h <;> simp [supported_algorithms]

/-- `calculate_file_hashes` on a missing file returns the empty mapping. -/
theorem calculate_file_hashes_missing {d : DigestImpl} {fs : FileSystem}
    {file_path : String} (algorithms : Option (List String))
    (hfs : fs file_path = none) :
    calculate_file_hashes d fs file_path algorithms = [] := by
  simp only [calculate_file_hashes, calculate_body, hfs]
  rw [ite_self]

/-- `calculate_file_hashes` on a permission-denied file returns the empty
mapping: the `PermissionError` raised by `open` is caught. -/
theorem calculate_file_hashes_denied {d : DigestImpl} {fs : FileSystem}
    {file_path : String} (algorithms : Option (List String))
    (hfs : fs file_path = some FileAccess.permissionDenied) :
    calculate_file_hashes d fs file_path algorithms = [] := by
  simp only [calculate_file_hashes, calculate_body, hfs]
  rw [ite_self]

/-- C8: unsupported algorithm names are dropped (every key of the result
is a supported algorithm) rather than failing the call; a request whose
supported part is empty returns the empty mapping; a missing file and a
permission-denied file both return the empty mapping; and every result is
either empty or comes from an actually readable file — the two `except`
clauses convert every raise from the body into `{}`, so nothing ever
propagates to the caller. -/
theorem calculate_file_hashes_never_fails
    (d : DigestImpl) (fs : FileSystem) (file_path : String)
    (algs : List String) :
    (∀ p ∈ calculate_file_hashes d fs file_path (some algs),
        p.1 ∈ supported_algorithms) ∧
    ((algs.filter fun a => decide (a ∈ supported_algorithms)) = [] →
        calculate_file_hashes d fs file_path (some algs) = []) ∧
    (∀ algorithms, fs file_path = none →
        calculate_file_hashes d fs file_path algorithms = []) ∧
    (∀ algorithms, fs file_path = some FileAccess.permissionDenied →
        calculate_file_hashes d fs file_path algorithms = []) ∧
    (∀ algorithms, calculate_file_hashes d fs file_path algorithms = [] ∨
        ∃ bytes, fs file_path = some (FileAccess.content bytes)) := by
  refine ⟨?_, ?_, ?_, ?_, ?_⟩
  · intro p hp
    obtain ⟨bytes, -, hmem⟩ := mem_calculate_file_hashes hp
    exact hash_objects_key_supported hmem
  · intro hempty
    by_cases hinv : (algs.filter fun a => decide (a ∉ supported_algorithms)) = []
    · have hall : algs.filter (fun a => decide (a ∈ supported_algorithms)) = algs := by
        apply List.filter_eq_self.mpr
        intro a ha
        by_contra hna
        have hmem : a ∈ algs.filter fun a => decide (a ∉ supported_algorithms) :=
          List.mem_filter.mpr ⟨ha, by simpa using hna⟩
        rw [hinv] at hmem
        exact absurd hmem (List.not_mem_nil a)
      have halgs : algs = [] := by rw [← hall, hempty]
      subst halgs
      simp [calculate_file_hashes]
    · have hcond : (algs.filter fun a => decide (a ∉ supported_algorithms)).isEmpty = false := by
        cases hc : algs.filter fun a => decide (a ∉ supported_algorithms) with
        | nil => exact absurd hc hinv
        | cons a l => rfl
      simp only [calculate_file_hashes, Option.getD_some]
      simp [hcond, hempty]
      intro hall hne
      have halgs : algs = [] := by
        have h : algs.filter (fun a => decide (a ∈ supported_algorithms)) = algs :=
          List.filter_eq_self.mpr fun a ha => by simpa using hall a ha
        rw [← h]
        exact hempty
      exact absurd halgs hne
  · exact fun algorithms hfs => calculate_file_hashes_missing algorithms hfs
  · exact fun algorithms hfs => calculate_file_hashes_denied algorithms hfs
  · intro algorithms
    cases hfs : fs file_path with
    | none => exact Or.inl (calculate_file_hashes_missing algorithms hfs)
    | some fa =>
      cases fa with
      | permissionDenied => exact Or.inl (calculate_file_hashes_denied algorithms hfs)
      | content bytes => exact Or.inr ⟨bytes, rfl⟩

/-- C8 (witness): missing file, permission-denied file, and a fully
unsupported algorithm list all yield the empty mapping on the concrete
fixture file system. -/
theorem calculate_file_hashes_never_fails_witness :
    calculate_file_hashes d0 fs0 "missing.bin" (some ["md5"]) = [] ∧
    calculate_file_hashes d0 fs0 "locked.bin" (some ["md5"]) = [] ∧
    calculate_file_hashes d0 fs0 "evidence.bin" (some ["bogus"]) = [] :=
  ⟨(calculate_file_hashes_never_fails d0 fs0 "missing.bin" ["md5"]).2.2.1
      (some ["md5"]) (by decide),
   (calculate_file_hashes_never_fails d0 fs0 "locked.bin" ["md5"]).2.2.2.1
      (some ["md5"]) (by decide),
   (calculate_file_hashes_never_fails d0 fs0 "evidence.bin" ["bogus"]).2.1
      (by decide)⟩

/-- Recomputing the hashes of a readable file for one supported algorithm
yields exactly the singleton mapping of that algorithm's digest. -/
theorem calculate_file_hashes_single {d : DigestImpl} {fs : FileSystem}
    {file_path : String} {bytes : List Nat} {algorithm : String}
    (hread : fs file_path = some (FileAccess.content bytes))
    (halg : algorithm ∈ supported_algorithms) :
    calculate_file_hashes d fs file_path (some [algorithm]) =
      [(algorithm, algorithmDigest d algorithm bytes)] := by
  simp only [supported_algorithms, List.mem_cons, List.not_mem_nil, or_false] at halg
  rcases halg with h | h | h <;> subst h <;>
    simp [calculate_file_hashes, calculate_body, hash_objects,
      supported_algorithms, algorithmDigest, hread]

/-- C9: for every readable file and supported algorithm, verifying the
digest that `calculate_file_hashes` just produced succeeds —
`verify_file_hash` recomputes over the same bytes and compares the two
(identical) digests case-insensitively. -/
theorem verify_file_hash_round_trip
    (d : DigestImpl) (fs : FileSystem) (file_path : String)
    (bytes : List Nat) (algorithm : String)
    (hread : fs file_path = some (FileAccess.content bytes))
    (halg : algorithm ∈ supported_algorithms) :
    ∃ dg, (calculate_file_hashes d fs file_path (some [algorithm])).lookup algorithm
            = some dg ∧
      verify_file_hash d fs file_path dg algorithm = true := by
  refine ⟨algorithmDigest d algorithm bytes, ?_, ?_⟩
  · rw [calculate_file_hashes_single hread halg]
    simp [List.lookup]
  · rw [verify_file_hash, if_neg (by simpa using halg),
      calculate_file_hashes_single hread halg]
    simp [List.lookup]

/-- C9 (witness): the round trip holds on the concrete fixture file for
each of the three supported algorithms. -/
theorem verify_file_hash_round_trip_witness :
    (∃ dg, (calculate_file_hashes d0 fs0 "evidence.bin" (some ["md5"])).lookup "md5"
        = some dg ∧ verify_file_hash d0 fs0 "evidence.bin" dg "md5" = true) ∧
    (∃ dg, (calculate_file_hashes d0 fs0 "evidence.bin" (some ["sha256"])).lookup "sha256"
        = some dg ∧ verify_file_hash d0 fs0 "evidence.bin" dg "sha256" = true) :=
  ⟨verify_file_hash_round_trip d0 fs0 "evidence.bin" [0, 1] "md5" (by decide) (by decide),
   verify_file_hash_round_trip d0 fs0 "evidence.bin" [0, 1] "sha256" (by decide) (by decide)⟩

/-- C10: calling `calculate_file_hashes` with the algorithm list omitted
(`None`) defaults to all three supported algorithms and, on a readable
file, returns a mapping with exactly the keys md5, sha1 and sha256 (in
dict insertion order). -/
theorem calculate_file_hashes_default_algorithms
    (d : DigestImpl) (fs : FileSystem) (file_path : String) (bytes : List Nat)
    (hread : fs file_path = some (FileAccess.content bytes)) :
    calculate_file_hashes d fs file_path none =
      [("md5", d.md5 bytes), ("sha1", d.sha1 bytes), ("sha256", d.sha256 bytes)] := by
  simp [calculate_file_hashes, calculate_body, hash_objects,
    supported_algorithms, hread]

/-- C10 (witness): the default on the concrete fixture file. -/
theorem calculate_file_hashes_default_algorithms_witness :
    calculate_file_hashes d0 fs0 "evidence.bin" none =
      [("md5", "aa"), ("sha1", "bb"), ("sha256", "cc")] :=
  calculate_file_hashes_default_algorithms d0 fs0 "evidence.bin" [0, 1] (by decide)

end Winscope
